import Mathlib

/-!
Verification development for the directory-tree batch media-transcoding
pipeline (src/media/media_process.py, src/media/img2webp.py,
src/media/video_compress.py).

The embedding models a single file's conversion state as the pair of the
file's mapped `output_path` and `temp_path` (each absent, a partial write,
or a fully written file of some byte size).  External tools (cwebp,
ffmpeg), the concurrent-publication race and the bitrate probe are
parameters of the per-file functions, which are otherwise translated
statement by statement from the Python source.
-/

namespace MediaPipeline

/-- Python `s.startswith(pre)`, on the character sequences of the strings. -/
def str_starts_with (s pre : String) : Bool := pre.toList.isPrefixOf s.toList

/-- Python `s.endswith(suf)`, on the character sequences of the strings. -/
def str_ends_with (s suf : String) : Bool := suf.toList.isSuffixOf s.toList

/-- Python `s[:-1]`. -/
def str_drop_last (s : String) : String := String.mk s.toList.dropLast

/-- Python `s[1:]`. -/
def str_drop_first (s : String) : String := String.mk (s.toList.drop 1)

/-- Python `s.lower()`. -/
def str_to_lower (s : String) : String := String.mk (s.toList.map Char.toLower)

/-- State of one filesystem entry: absent is `Option.none`; `incomplete`
is a file whose writer was interrupted before finishing; `full n` is a
completely written file of `n` bytes. -/
inductive FileData where
  | incomplete : FileData
  | full (size : Nat) : FileData
deriving DecidableEq, Repr

/-- Byte size reported by `stat()`.  An interrupted write has some size
too, but no claim depends on it, so it is reported as 0. -/
def FileData.statSize : FileData → Nat
  | .incomplete => 0
  | .full n => n

/-- The two paths a single conversion touches: the mapped `output_path`
and its sibling `temp_path` (img2webp.py:37,48; video_compress.py:91-92). -/
structure FileSlot where
  output : Option FileData
  temp : Option FileData
deriving DecidableEq, Repr

/-- Message tag of a `TaskResult`, abstracting the formatted log text of
the Python dicts.  `existsSkip` is "(已存在，跳过)", `raceSkip` is
"(另一进程已处理)", `errorCode`/`errorText` carry the tool's exit code or
the exception text. -/
inductive Msg where
  | converted
  | existsSkip
  | raceSkip
  | errorCode (code : Int)
  | errorText (text : String)
deriving DecidableEq, Repr

/-- The (success, stats-dict) pair returned by `process_image` /
`process_video`.  On failure the Python dict has no size fields; they are
reported as 0 here and are never read by the stats fold in that case. -/
structure TaskResult where
  success : Bool
  msg : Msg
  originalSize : Nat
  processedSize : Nat
deriving DecidableEq, Repr

/-- Outcome of one external-tool invocation writing `temp_path`:
exit code 0 with a fully written temp of the given size, a
`CalledProcessError` with the given code, or any other exception. -/
inductive EncOutcome where
  | ok (size : Nat)
  | fail (code : Int)
  | raiseExc (text : String)
deriving DecidableEq, Repr

/-- Result of running one task callback: the returned `TaskResult`, the
final state of the file's output/temp slot, and whether the external
encoder was invoked (`subprocess.run(cmd)` in img2webp.py:62,
`execute_ffmpeg` in video_compress.py:255). -/
structure StepOut where
  result : TaskResult
  slot : FileSlot
  encoderInvoked : Bool
deriving DecidableEq, Repr

/-- A concurrent worker or process may publish the same logical output
between the encoder finishing and the re-check (img2webp.py:67,
video_compress.py:190): `some n` means a complete file of `n` bytes
appeared at `output_path`. -/
def applyRace (race : Option Nat) (s : FileSlot) : FileSlot :=
  match race with
  | some n => { s with output := some (.full n) }
  | none => s

/-- Translation of `process_image` (img2webp.py:27-99).  `enc` is the
cwebp invocation's outcome, `race` the concurrent-publication event,
`origSize` the input file's byte size, `slot` the state of the mapped
output and temp paths when the task runs. -/
def process_image (enc : EncOutcome) (race : Option Nat) (origSize : Nat)
    (slot : FileSlot) : StepOut :=
  -- lines 40-45: if output_path.exists(): stats from existing output, success
  match slot.output with
  | some d =>
      { result := { success := true, msg := .existsSkip,
                    originalSize := origSize, processedSize := d.statSize },
        slot := slot, encoderInvoked := false }
  | none =>
      -- lines 48-50: delete any stale temp file
      let slot1 : FileSlot := { slot with temp := none }
      -- lines 61-63: cwebp writes temp_file; the try block spans lines 61-99
      match enc with
      | .ok s =>
          let slot2 : FileSlot := { slot1 with temp := some (.full s) }
          let slot3 := applyRace race slot2
          match slot3.output with
          | some d =>
              -- lines 67-73: output appeared concurrently: unlink temp, success
              { result := { success := true, msg := .raceSkip,
                            originalSize := origSize, processedSize := d.statSize },
                slot := { slot3 with temp := none }, encoderInvoked := true }
          | none =>
              -- lines 76-84: shutil.move(temp_file, output_path), success
              { result := { success := true, msg := .converted,
                            originalSize := origSize, processedSize := s },
                slot := { output := some (.full s), temp := none },
                encoderInvoked := true }
      | .fail c =>
          -- lines 85-91: CalledProcessError: unlink temp if present, failure
          { result := { success := false, msg := .errorCode c,
                        originalSize := 0, processedSize := 0 },
            slot := { slot1 with temp := none }, encoderInvoked := true }
      | .raiseExc t =>
          -- lines 92-99: any other exception: unlink temp if present, failure
          { result := { success := false, msg := .errorText t,
                        originalSize := 0, processedSize := 0 },
            slot := { slot1 with temp := none }, encoderInvoked := true }

/-- Translation of `format_size` (media_process.py:21-27) at the argument
values `process_video` feeds it: an `Option Nat` bitrate.  On a number the
Python loop produces a formatted text (abstracted here to `toString`); on
`None` the comparison `size < 1024` raises `TypeError`, which is modelled
as the error case. -/
def format_size : Option Nat → Except String String
  | none => .error "TypeError: NoneType comparison"
  | some n => .ok (toString n)

/-- The copy-shortcut condition of video_compress.py:217,
`if original_bitrate and target_bitrate and original_bitrate <= target_bitrate`,
with Python truthiness: `None` and `0` are falsy. -/
def copy_shortcut_cond (ob tb : Option Nat) : Bool :=
  (ob.getD 0 != 0) && (tb.getD 0 != 0) && (ob.getD 0 ≤ tb.getD 0)

/-- Translation of `handle_result` (video_compress.py:188-204): publish or
discard the temp file the encoder produced.  `none` models the branches
that raise (`temp_file.unlink()` / `shutil.move` on a missing temp file);
those exceptions are caught by `process_video`'s `except` clauses. -/
def handle_result (origSize : Nat) (slot : FileSlot) : Option (TaskResult × FileSlot) :=
  match slot.output with
  | some d =>
      -- lines 190-196: output appeared concurrently: unlink temp, success
      match slot.temp with
      | some _ =>
          some ({ success := true, msg := .existsSkip,
                  originalSize := origSize, processedSize := d.statSize },
                { slot with temp := none })
      | none => none
  | none =>
      -- lines 198-204: shutil.move(temp_file, output_path), success
      match slot.temp with
      | some t =>
          some ({ success := true, msg := .converted,
                  originalSize := origSize, processedSize := t.statSize },
                { output := some t, temp := none })
      | none => none

/-- Translation of `process_video` (video_compress.py:206-269).
`probedBitrate` is `get_video_bitrate`'s result (the ffmpeg `-i` probe,
which returns `None` when no rate is parsed), `bitrate` the parsed target
bitrate (`parse_bitrate` of the CLI string; `None` when the flag is
absent), `enc` the `execute_ffmpeg` outcome, `race` the
concurrent-publication event.  The `Except` error case models an
exception that propagates out of the function uncaught. -/
def process_video (probedBitrate : Option Nat) (enc : EncOutcome) (race : Option Nat)
    (origSize : Nat) (bitrate : Option Nat) (slot : FileSlot) :
    Except String StepOut := do
  -- line 212: original_bitrate = get_video_bitrate(video_path)
  let original_bitrate := probedBitrate
  -- line 213: target_bitrate = parse_bitrate(bitrate) if bitrate else None
  let target_bitrate := bitrate
  -- line 214: logI(f-string with format_size(original_bitrate) and
  -- format_size(target_bitrate)): raises TypeError when either is None
  let _ ← format_size original_bitrate
  let _ ← format_size target_bitrate
  if copy_shortcut_cond original_bitrate target_bitrate then
    -- lines 216-236: original bitrate at or below target: copy the file
    -- line 219: get_output_path deletes any stale temp (lines 94-95)
    let slot1 : FileSlot := { slot with temp := none }
    match slot1.output with
    | some d =>
        -- lines 221-227: output exists: stats from existing output, success
        return { result := { success := true, msg := .existsSkip,
                             originalSize := origSize, processedSize := d.statSize },
                 slot := slot1, encoderInvoked := false }
    | none =>
        -- line 230: shutil.copy2(video_path, output_path): writes the
        -- output path directly, no temp file and no move
        return { result := { success := true, msg := .converted,
                             originalSize := origSize, processedSize := origSize },
                 slot := { slot1 with output := some (.full origSize) },
                 encoderInvoked := false }
  else
    -- line 239: get_output_path deletes any stale temp (lines 94-95)
    let slot1 : FileSlot := { slot with temp := none }
    match slot1.output with
    | some d =>
        -- lines 242-247: output exists: stats from existing output, success
        return { result := { success := true, msg := .existsSkip,
                             originalSize := origSize, processedSize := d.statSize },
                 slot := slot1, encoderInvoked := false }
    | none =>
        -- lines 250-252: prepare_ffmpeg_command (encoder selection and rate
        -- flags, abstracted); the try block spans lines 254-269
        match enc with
        | .ok s =>
            -- execute_ffmpeg wrote temp_file completely (exit code 0)
            let slot2 : FileSlot := { slot1 with temp := some (.full s) }
            let slot3 := applyRace race slot2
            match handle_result origSize slot3 with
            | some (r, sl) =>
                return { result := r, slot := sl, encoderInvoked := true }
            | none =>
                -- exception inside handle_result, caught at lines 264-269
                return { result := { success := false, msg := .errorText "file not found",
                                     originalSize := 0, processedSize := 0 },
                         slot := { slot3 with temp := none }, encoderInvoked := true }
        | .fail c =>
            -- lines 257-263: CalledProcessError: unlink temp if present, failure
            return { result := { success := false, msg := .errorCode c,
                                 originalSize := 0, processedSize := 0 },
                     slot := { slot1 with temp := none }, encoderInvoked := true }
        | .raiseExc t =>
            -- lines 264-269: any other exception: unlink temp if present, failure
            return { result := { success := false, msg := .errorText t,
                                 originalSize := 0, processedSize := 0 },
                     slot := { slot1 with temp := none }, encoderInvoked := true }

/-! ### Write-level trace model of one conversion

The per-file protocol is also modelled at the granularity of single
filesystem writes, to reason about abnormal termination: a crash stops
the operation sequence after an arbitrary prefix.  An external writer
(cwebp, ffmpeg, `shutil.copy2`) is not atomic, so it is modelled as a
start-write step (the destination now exists but is incomplete) followed
by a finish-write step; `shutil.move` of a temp file onto its sibling
output path is a single atomic rename. -/

/-- One primitive filesystem operation on a conversion's slot. -/
inductive FsOp where
  | unlinkTemp
  | startWriteTemp
  | finishWriteTemp (size : Nat)
  | moveTempToOutput
  | startWriteOutput
  | finishWriteOutput (size : Nat)
deriving DecidableEq, Repr

/-- Effect of one primitive operation. -/
def applyOp (s : FileSlot) : FsOp → FileSlot
  | .unlinkTemp => { s with temp := none }
  | .startWriteTemp => { s with temp := some .incomplete }
  | .finishWriteTemp n => { s with temp := some (.full n) }
  | .moveTempToOutput => { output := s.temp, temp := none }
  | .startWriteOutput => { s with output := some .incomplete }
  | .finishWriteOutput n => { s with output := some (.full n) }

/-- Run a sequence of operations. -/
def runOps (s : FileSlot) : List FsOp → FileSlot
  | [] => s
  | op :: ops => runOps (applyOp s op) ops

/-- Operation sequence of an encoded conversion once the encoder is
invoked: delete stale temp, encoder writes temp_path, publish by a single
move (img2webp.py:49-50,62,77; video_compress.py:94-95,166,199). -/
def encodedTrace (size : Nat) : List FsOp :=
  [.unlinkTemp, .startWriteTemp, .finishWriteTemp size, .moveTempToOutput]

/-- Operation sequence of the copy shortcut taken when the original
bitrate is at or below the target: `shutil.copy2(video_path, output_path)`
(video_compress.py:230) streams the bytes directly into output_path. -/
def copyShortcutTrace (size : Nat) : List FsOp :=
  [.startWriteOutput, .finishWriteOutput size]

/-- The slot never holds an interrupted write at output_path. -/
def outputCompleteOrAbsent (s : FileSlot) : Bool :=
  match s.output with
  | some .incomplete => false
  | _ => true

/-- Every prefix of the operation sequence (that is, every point at which
the worker could be killed) leaves output_path absent or complete. -/
def allPrefixesOutputSafe (s : FileSlot) (ops : List FsOp) : Bool :=
  (List.range (ops.length + 1)).all fun n => outputCompleteOrAbsent (runOps s (ops.take n))

/-! ### Skip patterns -/

/-- The pattern loop shared by `should_skip_dir` and `should_skip_file`
(media_process.py:169-197), without the skip-record append (the walks
below record the matched paths): for each pattern in order, a pattern
ending in `*` is tried as a prefix of the name, a pattern starting with
`*` as a suffix, and otherwise as the exact name; the first match returns
True, and a name matching no pattern is not skipped. -/
def should_skip (name : String) (patterns : List String) : Bool :=
  match patterns with
  | [] => false
  | p :: rest =>
      if str_ends_with p "*" && str_starts_with name (str_drop_last p) then true
      else if str_starts_with p "*" && str_ends_with name (str_drop_first p) then true
      else if p == name then true
      else should_skip name rest

/-- Single-pattern matching in the words of the specification: a pattern
ending in `*` matches as a prefix, a pattern starting with `*` matches as
a suffix, and any other pattern matches the exact name. -/
def pattern_matches_spec (p name : String) : Bool :=
  (str_ends_with p "*" && str_starts_with name (str_drop_last p)) ||
  (str_starts_with p "*" && str_ends_with name (str_drop_first p)) ||
  (!str_ends_with p "*" && !str_starts_with p "*" && p == name)

/-- Skip-directory patterns, media_process.py:163. -/
def skip_dir_patterns : List String := ["@*", ".*"]

/-- Skip-file patterns, media_process.py:164. -/
def skip_file_patterns : List String := [".*"]

/-! ### Statistics accumulation -/

/-- The shared stats dict created in `process` (media_process.py:334-337). -/
structure RunStats where
  processed_files : Nat
  original_size : Nat
  processed_size : Nat
deriving DecidableEq, Repr

/-- One result's update of the stats dict, media_process.py:283-287: under
the stats lock, only a successful result increments the file count and
adds the two byte sizes. -/
def recordResult (st : RunStats) (r : TaskResult) : RunStats :=
  if r.success then
    { processed_files := st.processed_files + 1,
      original_size := st.original_size + r.originalSize,
      processed_size := st.processed_size + r.processedSize }
  else st

/-- The lock-serialized sequence of updates over a run's results. -/
def accumulate (rs : List TaskResult) : RunStats :=
  rs.foldl recordResult ⟨0, 0, 0⟩

/-! ### Directory trees and the two traversals

A directory's contents are modelled as the sequence of entries in the
order `Path.iterdir()` yields them; the walks below consume that sequence
in order, as the source loops do. -/

mutual
/-- One directory entry as `iterdir` yields it. -/
inductive Entry where
  | file (name : String) : Entry
  | dir (name : String) (children : EntryList) : Entry
/-- The enumeration order of a directory's children. -/
inductive EntryList where
  | nil : EntryList
  | cons (head : Entry) (tail : EntryList) : EntryList
end

/-- Build an `EntryList` from a `List Entry`. -/
def elist : List Entry → EntryList
  | [] => .nil
  | e :: es => .cons e (elist es)

/-- A path below the input root, as the list of name components. -/
abbrev FsPath := List String

/-- Python `pathlib`'s `item.suffix`: the last index of a dot in the
name, kept only when it is neither the first nor past the last character. -/
def lastDotIndex : List Char → Option Nat
  | [] => none
  | c :: cs =>
      match lastDotIndex cs with
      | some i => some (i + 1)
      | none => if c = '.' then some 0 else none

/-- Python `pathlib`'s `item.suffix` on an entry name. -/
def path_suffix (name : String) : String :=
  let cs := name.toList
  match lastDotIndex cs with
  | some i => if 0 < i ∧ i < cs.length - 1 then String.mk (cs.drop i) else ""
  | none => ""

/-- The eligibility test of both walks (media_process.py:206,223):
`item.suffix.lower() in supported_formats`. -/
def eligible_ext (fmts : List String) (name : String) : Bool :=
  fmts.contains (str_to_lower (path_suffix name))

/-- What one walk produces: the eligible files it collected and the
skipped directories and files it appended to the skip record, each list
in traversal order. -/
structure WalkOut where
  files : List FsPath
  sdirs : List FsPath
  sfiles : List FsPath
deriving DecidableEq, Repr

/-- Concatenation of two walk outputs. -/
def WalkOut.append (a b : WalkOut) : WalkOut :=
  ⟨a.files ++ b.files, a.sdirs ++ b.sdirs, a.sfiles ++ b.sfiles⟩

/-- The empty walk output. -/
def wempty : WalkOut := ⟨[], [], []⟩

mutual
/-- One entry's treatment by `_collect` inside `collect_all_files`
(media_process.py:203-211): an eligible-extension file is skip-checked
and collected or recorded; a directory is skip-checked and recorded or
recursed into immediately. -/
def collect_entry (fmts dpats fpats : List String) (pfx : FsPath) : Entry → WalkOut
  | .file n =>
      if eligible_ext fmts n then
        if should_skip n fpats then ⟨[], [], [pfx ++ [n]]⟩
        else ⟨[pfx ++ [n]], [], []⟩
      else wempty
  | .dir n cs =>
      if should_skip n dpats then ⟨[], [pfx ++ [n]], []⟩
      else collect_list fmts dpats fpats (pfx ++ [n]) cs
/-- The `for item in input_path.iterdir()` loop of `_collect`, in
enumeration order. -/
def collect_list (fmts dpats fpats : List String) (pfx : FsPath) : EntryList → WalkOut
  | .nil => wempty
  | .cons e es =>
      WalkOut.append (collect_entry fmts dpats fpats pfx e)
        (collect_list fmts dpats fpats pfx es)
end

/-- What `collect_current_dir_files` returns and records: the current
directory's eligible files, its non-skipped subdirectories (as entries,
in order), and the skip-record appends made during the loop. -/
structure LevelOut where
  files : List FsPath
  subdirs : List Entry
  sdirs : List FsPath
  sfiles : List FsPath

/-- Concatenation of two level outputs. -/
def LevelOut.append (a b : LevelOut) : LevelOut :=
  ⟨a.files ++ b.files, a.subdirs ++ b.subdirs, a.sdirs ++ b.sdirs, a.sfiles ++ b.sfiles⟩

/-- One entry's treatment by the `collect_current_dir_files` loop
(media_process.py:222-228). -/
def level_item (fmts dpats fpats : List String) (pfx : FsPath) : Entry → LevelOut
  | .file n =>
      if eligible_ext fmts n then
        if should_skip n fpats then ⟨[], [], [], [pfx ++ [n]]⟩
        else ⟨[pfx ++ [n]], [], [], []⟩
      else ⟨[], [], [], []⟩
  | .dir n cs =>
      if should_skip n dpats then ⟨[], [], [pfx ++ [n]], []⟩
      else ⟨[], [.dir n cs], [], []⟩

/-- Translation of `collect_current_dir_files` (media_process.py:216-230):
one non-recursive pass over a directory's children in enumeration order. -/
def collect_current_dir_files (fmts dpats fpats : List String) (pfx : FsPath) :
    EntryList → LevelOut
  | .nil => ⟨[], [], [], []⟩
  | .cons e es =>
      LevelOut.append (level_item fmts dpats fpats pfx e)
        (collect_current_dir_files fmts dpats fpats pfx es)

/-- The walk-visible part (collected files and skip-record appends) of one
`collect_current_dir_files` pass. -/
def level_walk (fmts dpats fpats : List String) (pfx : FsPath) (es : EntryList) : WalkOut :=
  let L := collect_current_dir_files fmts dpats fpats pfx es
  ⟨L.files, L.sdirs, L.sfiles⟩

/-- The recursion of `_process_directory` into the subdirectories
`collect_current_dir_files` returned (media_process.py:294-295), with
each visited directory's own `_process_directory` body — one
`collect_current_dir_files` pass followed by the recursion — unfolded in
place.  `process_directory` below packages the body back into the
source's shape. -/
def process_subdirs (fmts dpats fpats : List String) (pfx : FsPath) : EntryList → WalkOut
  | .nil => wempty
  | .cons (.file _) es => process_subdirs fmts dpats fpats pfx es
  | .cons (.dir n cs) es =>
      WalkOut.append
        (if should_skip n dpats then wempty
         else
           WalkOut.append (level_walk fmts dpats fpats (pfx ++ [n]) cs)
             (process_subdirs fmts dpats fpats (pfx ++ [n]) cs))
        (process_subdirs fmts dpats fpats pfx es)

/-- Translation of `_process_directory` (media_process.py:257-295): collect
the current directory's files and subdirectories in one pass, dispatch the
file batch, then recurse into each subdirectory in order. -/
def process_directory (fmts dpats fpats : List String) (pfx : FsPath)
    (children : EntryList) : WalkOut :=
  WalkOut.append (level_walk fmts dpats fpats pfx children)
    (process_subdirs fmts dpats fpats pfx children)

/-! ### The pipeline driver -/

/-- The progress tracker the driver constructs: `GlobalProgressTracker`
with the whole-tree file count (media_process.py:341,119-126), or the
per-directory variant that resets its denominator per directory. -/
inductive TrackerChoice where
  | globalTracker (total_files : Nat)
  | perDirectory
deriving DecidableEq, Repr

/-- Observable outcome of one `MediaProcessor.process` run. -/
structure DriverOut where
  ok : Bool
  dispatched : List FsPath
  tracker : Option TrackerChoice
  skipped_dirs : List FsPath
  skipped_files : List FsPath
  stats : RunStats
deriving DecidableEq, Repr

/-- Translation of `MediaProcessor.process` (media_process.py:312-364) and
its `_process_directory` recursion: dependency check; full counting walk
(line 323); early `return False` when no files were found (lines 326-328);
otherwise construct a `GlobalProgressTracker` over the total (line 341),
walk the tree again directory by directory, folding each result into the
stats under the lock, and report the accumulated skip record.  `procFile`
is the subclass's per-file callback, abstracted to its returned result. -/
def mediaProcess (depsOk : Bool) (fmts dpats fpats : List String)
    (children : EntryList) (procFile : FsPath → TaskResult) : DriverOut :=
  if depsOk then
    let w1 := collect_list fmts dpats fpats [] children
    if w1.files.length = 0 then
      { ok := false, dispatched := [], tracker := none,
        skipped_dirs := w1.sdirs, skipped_files := w1.sfiles, stats := ⟨0, 0, 0⟩ }
    else
      let w2 := process_directory fmts dpats fpats [] children
      { ok := true, dispatched := w2.files,
        tracker := some (.globalTracker w1.files.length),
        skipped_dirs := w1.sdirs ++ w2.sdirs,
        skipped_files := w1.sfiles ++ w2.sfiles,
        stats := accumulate (w2.files.map procFile) }
  else
    { ok := false, dispatched := [], tracker := none,
      skipped_dirs := [], skipped_files := [], stats := ⟨0, 0, 0⟩ }

/-- Exit status of `img2webp.main` after `converter.process()` returns
(img2webp.py:168-170): `sys.exit(1)` on `False`, normal exit otherwise. -/
def img2webp_main_exit (processOk : Bool) : Nat :=
  if processOk then 0 else 1

/-- The image pipeline's supported formats (img2webp.py:107), including
the dotless `"heic"` entry exactly as the source writes it. -/
def image_supported_formats : List String :=
  [".jpg", ".jpeg", ".png", "heic", ".heif"]

/-- The command-line arguments `img2webp.main` parses (img2webp.py:135-143). -/
structure Img2webpArgs where
  input_dir : String
  quality : Nat
  local_progress : Bool
  workers : Option Nat
deriving DecidableEq, Repr

/-- The constructor arguments of `WebpConverter` (img2webp.py:104,162-166). -/
structure WebpConverterInit where
  input_dir : String
  quality : Nat
  workers : Option Nat
deriving DecidableEq, Repr

/-- How `img2webp.main` builds the converter from the parsed arguments
(img2webp.py:162-166): only `input_dir`, `quality` and `workers` are
passed on. -/
def mkWebpConverter (a : Img2webpArgs) : WebpConverterInit :=
  ⟨a.input_dir, a.quality, a.workers⟩

/-! ### Batches -/

/-- The per-file environment of one image task. -/
structure ImgTask where
  enc : EncOutcome
  race : Option Nat
  origSize : Nat

/-- Whether the external tool reported success. -/
def EncOutcome.isOk : EncOutcome → Bool
  | .ok _ => true
  | _ => false

/-- One directory batch of image tasks run by the pool's workers: each
task's callback runs independently on its own slot. -/
def runImageBatch : List (ImgTask × FileSlot) → List StepOut
  | [] => []
  | (t, s) :: rest => process_image t.enc t.race t.origSize s :: runImageBatch rest

/-- Pair a second run's task environments with the slots the first run
left behind. -/
def rePair : List ImgTask → List StepOut → List (ImgTask × FileSlot)
  | t :: ts, o :: os => (t, o.slot) :: rePair ts os
  | _, _ => []

/-- The `for subdir in subdirs: self._process_directory(subdir)` loop of
`_process_directory` (media_process.py:294-295), folding over a
subdirectory list returned by `collect_current_dir_files`. -/
def run_subdir_list (fmts dpats fpats : List String) (pfx : FsPath) : List Entry → WalkOut
  | [] => wempty
  | .file _ :: rest => run_subdir_list fmts dpats fpats pfx rest
  | .dir n cs :: rest =>
      WalkOut.append (process_directory fmts dpats fpats (pfx ++ [n]) cs)
        (run_subdir_list fmts dpats fpats pfx rest)

/-- The name of a directory entry. -/
def entry_name : Entry → String
  | .file n => n
  | .dir n _ => n

/-- The walk-visible part of one entry's `collect_current_dir_files`
treatment. -/
def level_item_walk (fmts dpats fpats : List String) (pfx : FsPath) (e : Entry) : WalkOut :=
  let L := level_item fmts dpats fpats pfx e
  ⟨L.files, L.sdirs, L.sfiles⟩

/-- One entry's contribution to the subdirectory recursion of
`process_subdirs`. -/
def subdir_step (fmts dpats fpats : List String) (pfx : FsPath) : Entry → WalkOut
  | .file _ => wempty
  | .dir n cs =>
      if should_skip n dpats then wempty
      else process_directory fmts dpats fpats (pfx ++ [n]) cs

/-! ## Theorems -/

@[simp] theorem WalkOut.append_files (a b : WalkOut) :
    (WalkOut.append a b).files = a.files ++ b.files := rfl

@[simp] theorem WalkOut.append_sdirs (a b : WalkOut) :
    (WalkOut.append a b).sdirs = a.sdirs ++ b.sdirs := rfl

@[simp] theorem WalkOut.append_sfiles (a b : WalkOut) :
    (WalkOut.append a b).sfiles = a.sfiles ++ b.sfiles := rfl

@[simp] theorem wempty_files : wempty.files = [] := rfl

@[simp] theorem wempty_sdirs : wempty.sdirs = [] := rfl

@[simp] theorem wempty_sfiles : wempty.sfiles = [] := rfl

@[simp] theorem LevelOut.append_subdirs (a b : LevelOut) :
    (LevelOut.append a b).subdirs = a.subdirs ++ b.subdirs := rfl

@[simp] theorem level_walk_files (fmts dpats fpats : List String) (pfx : FsPath)
    (es : EntryList) : (level_walk fmts dpats fpats pfx es).files
      = (collect_current_dir_files fmts dpats fpats pfx es).files := rfl

@[simp] theorem level_walk_sdirs (fmts dpats fpats : List String) (pfx : FsPath)
    (es : EntryList) : (level_walk fmts dpats fpats pfx es).sdirs
      = (collect_current_dir_files fmts dpats fpats pfx es).sdirs := rfl

@[simp] theorem level_walk_sfiles (fmts dpats fpats : List String) (pfx : FsPath)
    (es : EntryList) : (level_walk fmts dpats fpats pfx es).sfiles
      = (collect_current_dir_files fmts dpats fpats pfx es).sfiles := rfl

/-- `level_walk` over a cons splits into the head item and the rest. -/
theorem level_walk_cons (fmts dpats fpats : List String) (pfx : FsPath)
    (e : Entry) (es : EntryList) :
    level_walk fmts dpats fpats pfx (.cons e es)
      = WalkOut.append (level_item_walk fmts dpats fpats pfx e)
          (level_walk fmts dpats fpats pfx es) := rfl

/-- `process_subdirs` over a cons splits into the head entry's
contribution and the rest. -/
theorem process_subdirs_cons (fmts dpats fpats : List String) (pfx : FsPath)
    (e : Entry) (es : EntryList) :
    process_subdirs fmts dpats fpats pfx (.cons e es)
      = WalkOut.append (subdir_step fmts dpats fpats pfx e)
          (process_subdirs fmts dpats fpats pfx es) := by
  cases e with
  | file n => rfl
  | dir n cs => rfl

/-- One directory level of `_process_directory` splits into the head
entry's level and recursion contributions and the remaining entries'. -/
theorem process_directory_cons (fmts dpats fpats : List String) (pfx : FsPath)
    (e : Entry) (es : EntryList) :
    process_directory fmts dpats fpats pfx (.cons e es)
      = WalkOut.append
          (WalkOut.append (level_item_walk fmts dpats fpats pfx e)
            (level_walk fmts dpats fpats pfx es))
          (WalkOut.append (subdir_step fmts dpats fpats pfx e)
            (process_subdirs fmts dpats fpats pfx es)) := by
  rw [process_directory, level_walk_cons, process_subdirs_cons]

/-- Permutation swapping the middle two of four appended blocks. -/
theorem middle_swap {α : Type} (a b c d : List α) :
    List.Perm (a ++ b ++ (c ++ d)) (a ++ c ++ (b ++ d)) := by
  have h := List.Perm.append_left a (List.perm_append_comm_assoc b c d)
  simpa [List.append_assoc] using h

/-- The dispatch walk records the same skipped directories and skipped
files as the counting walk, up to order: the counting walk appends a
subtree's skips at the subdirectory's position in the enumeration, the
dispatch walk appends them after the current level. -/
theorem walk2_perm (fmts dpats fpats : List String) :
    ∀ (pfx : FsPath) (es : EntryList),
      List.Perm (process_directory fmts dpats fpats pfx es).sdirs
          (collect_list fmts dpats fpats pfx es).sdirs ∧
        List.Perm (process_directory fmts dpats fpats pfx es).sfiles
          (collect_list fmts dpats fpats pfx es).sfiles
  | pfx, .nil => by
      refine ⟨?_, ?_⟩ <;>
        · simp [process_directory, level_walk, collect_current_dir_files,
            process_subdirs, collect_list, wempty]
  | pfx, .cons (.file n) es => by
      have ih := walk2_perm fmts dpats fpats pfx es
      refine ⟨?_, ?_⟩
      · rw [process_directory_cons]
        simp only [WalkOut.append_sdirs]
        refine List.Perm.trans (middle_swap _ _ _ _) ?_
        simp only [collect_list, WalkOut.append_sdirs]
        refine List.Perm.append ?_ ih.1
        cases h1 : eligible_ext fmts n <;> cases h2 : should_skip n fpats <;>
          · simp [level_item_walk, level_item, subdir_step, collect_entry,
              wempty, h1, h2]
      · rw [process_directory_cons]
        simp only [WalkOut.append_sfiles]
        refine List.Perm.trans (middle_swap _ _ _ _) ?_
        simp only [collect_list, WalkOut.append_sfiles]
        refine List.Perm.append ?_ ih.2
        cases h1 : eligible_ext fmts n <;> cases h2 : should_skip n fpats <;>
          · simp [level_item_walk, level_item, subdir_step, collect_entry,
              wempty, h1, h2]
  | pfx, .cons (.dir n cs) es => by
      have ihes := walk2_perm fmts dpats fpats pfx es
      have ihcs := walk2_perm fmts dpats fpats (pfx ++ [n]) cs
      refine ⟨?_, ?_⟩
      · rw [process_directory_cons]
        simp only [WalkOut.append_sdirs]
        refine List.Perm.trans (middle_swap _ _ _ _) ?_
        simp only [collect_list, WalkOut.append_sdirs]
        refine List.Perm.append ?_ ihes.1
        cases h : should_skip n dpats <;>
          simp only [level_item_walk, level_item, subdir_step, collect_entry, h,
            Bool.false_eq_true, if_false, if_true, wempty_sdirs, List.nil_append,
            List.append_nil]
        · exact ihcs.1
        · exact List.Perm.refl _
      · rw [process_directory_cons]
        simp only [WalkOut.append_sfiles]
        refine List.Perm.trans (middle_swap _ _ _ _) ?_
        simp only [collect_list, WalkOut.append_sfiles]
        refine List.Perm.append ?_ ihes.2
        cases h : should_skip n dpats <;>
          simp only [level_item_walk, level_item, subdir_step, collect_entry, h,
            Bool.false_eq_true, if_false, if_true, wempty_sfiles, List.nil_append,
            List.append_nil]
        · exact ihcs.2
        · exact List.Perm.refl _

/-- The unfolded recursion of `process_subdirs` agrees with the source's
shape: `_process_directory` is called once for each entry of the
subdirectory list that `collect_current_dir_files` returned, in order. -/
theorem process_subdirs_eq_run (fmts dpats fpats : List String) :
    ∀ (pfx : FsPath) (es : EntryList),
      process_subdirs fmts dpats fpats pfx es
        = run_subdir_list fmts dpats fpats pfx
            (collect_current_dir_files fmts dpats fpats pfx es).subdirs
  | _, .nil => rfl
  | pfx, .cons (.file n) es => by
      have ih := process_subdirs_eq_run fmts dpats fpats pfx es
      simp only [process_subdirs, collect_current_dir_files, level_item]
      split <;> [skip; simp only [LevelOut.append_subdirs, List.nil_append, ih]]
      split <;> simp only [LevelOut.append_subdirs, List.nil_append, ih]
  | pfx, .cons (.dir n cs) es => by
      have ih := process_subdirs_eq_run fmts dpats fpats pfx es
      simp only [process_subdirs, collect_current_dir_files, level_item]
      split
      · simp only [LevelOut.append_subdirs, List.nil_append, ih]
        exact congrArg _ rfl
      · simp only [LevelOut.append_subdirs, List.cons_append, List.nil_append, ih,
          run_subdir_list, process_directory]
        rfl

/-- C1: the claimed no-partial-write protocol holds for the encoded
conversion path — at every kill point of its operation sequence,
output_path is absent or complete, and the sequence's final state is the
state `process_image` reaches on encoder success — but the copy shortcut
of `process_video` violates it: `shutil.copy2` writes output_path
directly, so the one-step prefix of its operation sequence (a worker
killed mid-copy) leaves an incomplete file at output_path, and the full
sequence is what the shortcut branch produces. -/
theorem C1_copy_shortcut_partial_write :
    allPrefixesOutputSafe ⟨none, none⟩ (encodedTrace 60) = true ∧
    runOps ⟨none, none⟩ (encodedTrace 60) = (process_image (.ok 60) none 100 ⟨none, none⟩).slot ∧
    allPrefixesOutputSafe ⟨none, none⟩ (copyShortcutTrace 60) = false ∧
    runOps ⟨none, none⟩ (List.take 1 (copyShortcutTrace 60)) = ⟨some .incomplete, none⟩ ∧
    process_video (some 500000) (.ok 0) none 60 (some 1048576) ⟨none, none⟩
      = .ok ⟨⟨true, .converted, 60, 60⟩, runOps ⟨none, none⟩ (copyShortcutTrace 60), false⟩ :=
  ⟨by decide, by decide, by decide, by decide, rfl⟩

/-- C5 (counterexample): on a tree with no eligible files and dependencies
available, `process` returns False and `img2webp.main` exits with status 1
— a nonzero process status, contrary to the claim. -/
theorem C5_counterexample :
    (mediaProcess true image_supported_formats skip_dir_patterns skip_file_patterns
        (elist [Entry.file "readme.txt"]) fun _ => ⟨true, .converted, 0, 0⟩).ok = false ∧
    img2webp_main_exit (mediaProcess true image_supported_formats skip_dir_patterns
        skip_file_patterns (elist [Entry.file "readme.txt"])
        fun _ => ⟨true, .converted, 0, 0⟩).ok = 1 := by
  decide

/-- C5 (amended): when the counting walk finds zero eligible files the
pipeline does terminate early — nothing is dispatched and no tracker is
constructed — but `process` returns False and the CLI exits with status 1,
the same signal as a failure. -/
theorem C5_zero_files_amended :
    ∀ (fmts dpats fpats : List String) (children : EntryList)
      (procFile : FsPath → TaskResult),
      (collect_list fmts dpats fpats [] children).files = [] →
      mediaProcess true fmts dpats fpats children procFile =
        { ok := false, dispatched := [], tracker := none,
          skipped_dirs := (collect_list fmts dpats fpats [] children).sdirs,
          skipped_files := (collect_list fmts dpats fpats [] children).sfiles,
          stats := ⟨0, 0, 0⟩ } ∧
      img2webp_main_exit (mediaProcess true fmts dpats fpats children procFile).ok = 1 := by
  intro fmts dpats fpats children procFile h
  constructor
  · simp [mediaProcess, h]
  · simp [mediaProcess, h, img2webp_main_exit]

/-- C5 (witness): the amended theorem applied to a concrete tree with one
ineligible file. -/
theorem C5_witness :
    mediaProcess true image_supported_formats skip_dir_patterns skip_file_patterns
        (elist [Entry.file "notes.txt"]) (fun _ => ⟨true, .converted, 0, 0⟩) =
      { ok := false, dispatched := [], tracker := none, skipped_dirs := [],
        skipped_files := [], stats := ⟨0, 0, 0⟩ } := by
  have h := C5_zero_files_amended image_supported_formats skip_dir_patterns
    skip_file_patterns (elist [Entry.file "notes.txt"])
    (fun _ => ⟨true, .converted, 0, 0⟩) (by decide)
  exact h.1.trans (by decide)

/-- C7: both traversals visit entries in the filesystem's enumeration
order and apply no sorting: on a directory enumerated as b.jpg before
a.jpg, `collect_all_files` collects b.jpg first (not the lexicographic
order), and `collect_current_dir_files` likewise returns files and
subdirectories in raw enumeration order. -/
theorem C7_enumeration_order_not_sorted :
    (collect_list image_supported_formats skip_dir_patterns skip_file_patterns []
        (elist [Entry.file "b.jpg", Entry.file "a.jpg"])).files
      = [["b.jpg"], ["a.jpg"]] ∧
    (collect_current_dir_files image_supported_formats skip_dir_patterns skip_file_patterns
        [] (elist [Entry.file "b.jpg", Entry.file "a.jpg", Entry.dir "z" .nil,
          Entry.dir "y" .nil])).files = [["b.jpg"], ["a.jpg"]] ∧
    ((collect_current_dir_files image_supported_formats skip_dir_patterns skip_file_patterns
        [] (elist [Entry.file "b.jpg", Entry.file "a.jpg", Entry.dir "z" .nil,
          Entry.dir "y" .nil])).subdirs.map entry_name) = ["z", "y"] := by
  refine ⟨by decide, by decide, ?_⟩
  decide

/-- A string starts with itself minus its last character. -/
theorem starts_with_drop_last_self (p : String) :
    str_starts_with p (str_drop_last p) = true :=
  List.isPrefixOf_iff_prefix.mpr (List.dropLast_prefix _)

/-- A string ends with itself minus its first character. -/
theorem ends_with_drop_first_self (p : String) :
    str_ends_with p (str_drop_first p) = true :=
  List.isSuffixOf_iff_suffix.mpr (List.drop_suffix _ _)

/-- C6: the pattern loop realizes exactly the per-pattern semantics the
specification states — prefix for a trailing `*`, suffix for a leading
`*`, exact match otherwise, first match wins, no match means do-not-skip —
and the three concrete examples hold. -/
theorem C6_should_skip_semantics :
    (∀ (name : String) (pats : List String),
        should_skip name pats = pats.any fun p => pattern_matches_spec p name) ∧
    should_skip "node_modules" ["node_modules"] = true ∧
    should_skip ".git" [".*"] = true ∧
    should_skip "src" [".*", "@*"] = false := by
  refine ⟨?_, by decide, by decide, by decide⟩
  intro name pats
  induction pats with
  | nil => rfl
  | cons p rest ih =>
      rw [List.any_cons, ← ih]
      by_cases h3 : (p == name) = true
      · have hpn : p = name := by simpa using h3
        subst hpn
        have hpre := starts_with_drop_last_self p
        have hsuf := ends_with_drop_first_self p
        cases hE : str_ends_with p "*" <;> cases hS : str_starts_with p "*" <;>
          simp [should_skip, pattern_matches_spec, hpre, hsuf, hE, hS]
      · have h3f : (p == name) = false := by simpa using h3
        cases hA : (str_ends_with p "*" && str_starts_with name (str_drop_last p)) <;>
          cases hB : (str_starts_with p "*" && str_ends_with name (str_drop_first p)) <;>
          simp [should_skip, pattern_matches_spec, h3f, hA, hB]

/-- C8: the stats fold records each result exactly once in the
lock-serialized order; only successful results change the three counters,
a failed result changes none of them, and the three successful results
(100,60), (200,150), (50,50) accumulate to processed_files=3,
original_size=350, processed_size=260, with or without an interleaved
failure. -/
theorem C8_stats_accumulation :
    accumulate [⟨true, .converted, 100, 60⟩, ⟨true, .converted, 200, 150⟩,
        ⟨true, .existsSkip, 50, 50⟩] = ⟨3, 350, 260⟩ ∧
    (∀ (st : RunStats) (r : TaskResult), r.success = false → recordResult st r = st) ∧
    (∀ (st : RunStats) (r : TaskResult), r.success = true →
        recordResult st r = ⟨st.processed_files + 1, st.original_size + r.originalSize,
          st.processed_size + r.processedSize⟩) ∧
    (∀ (st : RunStats) (rs : List TaskResult) (r : TaskResult),
        List.foldl recordResult st (rs ++ [r])
          = recordResult (List.foldl recordResult st rs) r) ∧
    accumulate [⟨true, .converted, 100, 60⟩, ⟨false, .errorCode 1, 0, 0⟩,
        ⟨true, .converted, 200, 150⟩, ⟨true, .existsSkip, 50, 50⟩] = ⟨3, 350, 260⟩ := by
  refine ⟨by decide, ?_, ?_, ?_, by decide⟩
  · intro st r h
    simp [recordResult, h]
  · intro st r h
    simp [recordResult, h]
  · intro st rs r
    simp [List.foldl_append]

/-- C8 (witness): a failed result leaves the counters unchanged and a
successful one increments them, at concrete inputs. -/
theorem C8_witness :
    recordResult ⟨3, 350, 260⟩ ⟨false, .errorCode 2, 7, 7⟩ = ⟨3, 350, 260⟩ ∧
    recordResult ⟨0, 0, 0⟩ ⟨true, .converted, 100, 60⟩ = ⟨1, 100, 60⟩ :=
  ⟨C8_stats_accumulation.2.1 _ _ rfl,
   (C8_stats_accumulation.2.2.1 ⟨0, 0, 0⟩ ⟨true, .converted, 100, 60⟩ rfl).trans (by decide)⟩

/-- When output_path already exists as the task starts, `process_image`
returns the already-converted skip and changes nothing. -/
theorem process_image_output_exists (enc : EncOutcome) (race : Option Nat)
    (sz : Nat) (slot : FileSlot) (d : FileData) (h : slot.output = some d) :
    process_image enc race sz slot
      = ⟨⟨true, .existsSkip, sz, d.statSize⟩, slot, false⟩ := by
  obtain ⟨o, t⟩ := slot
  obtain rfl : o = some d := by simpa using h
  rfl

/-- On encoder success, `process_image` always leaves a file at
output_path. -/
theorem process_image_ok_output_isSome (enc : EncOutcome) (race : Option Nat)
    (sz : Nat) (slot : FileSlot) (h : enc.isOk = true) :
    (process_image enc race sz slot).slot.output.isSome = true := by
  obtain ⟨o, t⟩ := slot
  cases enc with
  | ok s =>
      cases o with
      | some d => rfl
      | none => cases race with
        | some rs => rfl
        | none => rfl
  | fail c => simp [EncOutcome.isOk] at h
  | raiseExc m => simp [EncOutcome.isOk] at h

/-- The pool maps the callback over a batch task by task. -/
theorem runImageBatch_append :
    ∀ (a b : List (ImgTask × FileSlot)),
      runImageBatch (a ++ b) = runImageBatch a ++ runImageBatch b
  | [], _ => rfl
  | x :: a, b => by
      obtain ⟨t, s⟩ := x
      have ih := runImageBatch_append a b
      simp only [List.cons_append, runImageBatch]
      exact congrArg _ ih

/-- A batch whose tasks all report encoder success leaves every slot with
a file at output_path. -/
theorem first_run_outputs :
    ∀ (b : List (ImgTask × FileSlot)), (∀ x ∈ b, x.1.enc.isOk = true) →
      ∀ o ∈ runImageBatch b, o.slot.output.isSome = true
  | [], _ => by intro o ho; simp [runImageBatch] at ho
  | x :: b, h => by
      intro o ho
      obtain ⟨t, s⟩ := x
      rcases List.mem_cons.mp ho with rfl | ho
      · exact process_image_ok_output_isSome t.enc t.race t.origSize s
          (h (t, s) (by simp))
      · exact first_run_outputs b (fun y hy => h y (by simp [hy])) o ho

/-- Re-running a batch over slots that all hold an output file changes no
slot and reports every task as an already-exists skip with no encoder
invocation. -/
theorem second_run_skips :
    ∀ (ts : List ImgTask) (outs : List StepOut),
      (∀ o ∈ outs, o.slot.output.isSome = true) → ts.length = outs.length →
      (runImageBatch (rePair ts outs)).map StepOut.slot = outs.map StepOut.slot ∧
      ∀ o ∈ runImageBatch (rePair ts outs),
        o.result.success = true ∧ o.result.msg = .existsSkip ∧ o.encoderInvoked = false
  | [], [], _, _ => by simp [rePair, runImageBatch]
  | [], o :: os, _, hlen => by simp at hlen
  | t :: ts, [], _, hlen => by simp at hlen
  | t :: ts, o :: os, h, hlen => by
      obtain ⟨d, hd⟩ := Option.isSome_iff_exists.mp (h o (by simp))
      have hhead := process_image_output_exists t.enc t.race t.origSize o.slot d hd
      have ih := second_run_skips ts os (fun y hy => h y (by simp [hy]))
        (by simpa using hlen)
      constructor
      · simp only [rePair, runImageBatch, List.map_cons, hhead, ih.1]
      · intro x hx
        rcases (by simpa [rePair, runImageBatch, hhead] using hx :
            x = ⟨⟨true, .existsSkip, t.origSize, d.statSize⟩, o.slot, false⟩ ∨
              x ∈ runImageBatch (rePair ts os)) with hx | hx
        · subst hx; exact ⟨rfl, rfl, rfl⟩
        · exact ih.2 x hx

/-- C2 (counterexample): a video task whose mapped output_path already
exists does not return success when no target bitrate was parsed — the
`format_size(None)` call at video_compress.py:214 raises `TypeError`
before the existence check, and the exception propagates. -/
theorem C2_counterexample :
    process_video (some 500000) (.ok 10) none 1000 none ⟨some (.full 60), none⟩
      = .error "TypeError: NoneType comparison" := rfl

/-- C2 (amended): when output_path already exists, `process_image` returns
success with size-delta stats from the existing output, does not invoke
the encoder and changes nothing; `process_video` does the same — through
either the copy-shortcut branch or the encoder branch — provided the
bitrate probe and the target bitrate are both available (otherwise the
TypeError of video_compress.py:214 fires first), its only state change
being the deletion of a stale temp file.  Consequently, re-running an
image batch whose first run reported encoder success everywhere changes
no slot and reports every task as an already-exists skip with zero
encoder invocations. -/
theorem C2_idempotence_amended :
    (∀ (enc : EncOutcome) (race : Option Nat) (sz : Nat) (slot : FileSlot) (d : FileData),
        slot.output = some d →
        process_image enc race sz slot
          = ⟨⟨true, .existsSkip, sz, d.statSize⟩, slot, false⟩) ∧
    (∀ (o t : Nat) (enc : EncOutcome) (race : Option Nat) (sz : Nat)
        (slot : FileSlot) (d : FileData),
        slot.output = some d →
        process_video (some o) enc race sz (some t) slot
          = .ok ⟨⟨true, .existsSkip, sz, d.statSize⟩, { slot with temp := none }, false⟩) ∧
    (∀ (b1 : List (ImgTask × FileSlot)) (ts2 : List ImgTask),
        (∀ x ∈ b1, x.1.enc.isOk = true) → ts2.length = b1.length →
        (runImageBatch (rePair ts2 (runImageBatch b1))).map StepOut.slot
            = (runImageBatch b1).map StepOut.slot ∧
        ∀ o ∈ runImageBatch (rePair ts2 (runImageBatch b1)),
          o.result.success = true ∧ o.result.msg = .existsSkip ∧
            o.encoderInvoked = false) := by
  refine ⟨process_image_output_exists, ?_, ?_⟩
  · intro o t enc race sz slot d h
    obtain ⟨oo, tt⟩ := slot
    obtain rfl : oo = some d := by simpa using h
    simp only [process_video, format_size, bind, Except.bind]
    split <;> rfl
  · intro b1 ts2 hok hlen
    refine second_run_skips ts2 (runImageBatch b1) (first_run_outputs b1 hok) ?_
    rw [hlen]
    clear hok hlen
    induction b1 with
    | nil => rfl
    | cons x b ih => obtain ⟨t, s⟩ := x; simp [runImageBatch, ih]

/-- C2 (witness): the amended theorem at a one-task batch — converting a
fresh file, then re-running the same batch, leaves the slot unchanged and
reports an already-exists skip. -/
theorem C2_witness :
    (runImageBatch (rePair [⟨.ok 60, none, 100⟩]
        (runImageBatch [(⟨.ok 60, none, 100⟩, ⟨none, none⟩)]))).map StepOut.slot
      = (runImageBatch [(⟨.ok 60, none, 100⟩, ⟨none, none⟩)]).map StepOut.slot := by
  have h := C2_idempotence_amended.2.2 [(⟨.ok 60, none, 100⟩, ⟨none, none⟩)]
    [⟨.ok 60, none, 100⟩] (by intro x hx; simp at hx; rw [hx]; rfl) rfl
  exact h.1

/-- C3 (counterexample): an in-code exception raised before the encoder
phase is not caught: with no target bitrate available,
`format_size(None)` at video_compress.py:214 raises `TypeError`, which
propagates out of `process_video` instead of becoming a failed
TaskResult. -/
theorem C3_counterexample :
    process_video (some 500000) (.ok 10) none 1000 none ⟨none, none⟩
      = .error "TypeError: NoneType comparison" := rfl

/-- C3 (amended): any external-tool failure or exception raised during
the encoder-invocation-and-publish phase (the try block) is caught and
converted to a failed TaskResult with the temp file deleted, in both
`process_image` and `process_video`, and the pool maps the callback over
a batch task by task, so such a failure affects no sibling task;
exceptions raised before that phase (path mapping, existence stats, the
bitrate logging of video_compress.py:214) propagate out of the callback. -/
theorem C3_exception_handling_amended :
    (∀ (c : Int) (race : Option Nat) (sz : Nat) (t0 : Option FileData),
        process_image (.fail c) race sz ⟨none, t0⟩
          = ⟨⟨false, .errorCode c, 0, 0⟩, ⟨none, none⟩, true⟩) ∧
    (∀ (m : String) (race : Option Nat) (sz : Nat) (t0 : Option FileData),
        process_image (.raiseExc m) race sz ⟨none, t0⟩
          = ⟨⟨false, .errorText m, 0, 0⟩, ⟨none, none⟩, true⟩) ∧
    (∀ (o t : Nat) (c : Int) (race : Option Nat) (sz : Nat) (t0 : Option FileData),
        copy_shortcut_cond (some o) (some t) = false →
        process_video (some o) (.fail c) race sz (some t) ⟨none, t0⟩
          = .ok ⟨⟨false, .errorCode c, 0, 0⟩, ⟨none, none⟩, true⟩) ∧
    (∀ (o t : Nat) (m : String) (race : Option Nat) (sz : Nat) (t0 : Option FileData),
        copy_shortcut_cond (some o) (some t) = false →
        process_video (some o) (.raiseExc m) race sz (some t) ⟨none, t0⟩
          = .ok ⟨⟨false, .errorText m, 0, 0⟩, ⟨none, none⟩, true⟩) ∧
    (∀ (a b : List (ImgTask × FileSlot)),
        runImageBatch (a ++ b) = runImageBatch a ++ runImageBatch b) := by
  refine ⟨fun c race sz t0 => rfl, fun m race sz t0 => rfl, ?_, ?_, runImageBatch_append⟩
  · intro o t c race sz t0 hc
    simp [process_video, format_size, bind, Except.bind, hc]
    rfl
  · intro o t m race sz t0 hc
    simp [process_video, format_size, bind, Except.bind, hc]
    rfl

/-- C3 (witness): a CalledProcessError from ffmpeg at a concrete input is
returned as a failed TaskResult with the temp file removed. -/
theorem C3_witness :
    process_video (some 2000000) (.fail 187) none 1000 (some 1048576)
        ⟨none, some .incomplete⟩
      = .ok ⟨⟨false, .errorCode 187, 0, 0⟩, ⟨none, none⟩, true⟩ :=
  C3_exception_handling_amended.2.2.1 2000000 1048576 187 none 1000
    (some .incomplete) (by decide)

/-- C4: after the external tool succeeds in writing temp_path, the
re-check makes both outcomes a success: if output_path now exists the
temp file is deleted and the existing output's stats are reported,
otherwise the temp file is moved to output_path and delta stats are
reported — for `handle_result`, for `process_image`'s in-line re-check
under any race outcome, and for the full `process_video` encoder path. -/
theorem C4_race_recheck :
    (∀ (sz : Nat) (slot : FileSlot) (d t : FileData),
        slot.output = some d → slot.temp = some t →
        handle_result sz slot
          = some (⟨true, .existsSkip, sz, d.statSize⟩, { slot with temp := none })) ∧
    (∀ (sz : Nat) (slot : FileSlot) (t : FileData),
        slot.output = none → slot.temp = some t →
        handle_result sz slot
          = some (⟨true, .converted, sz, t.statSize⟩, ⟨some t, none⟩)) ∧
    (∀ (s : Nat) (race : Option Nat) (sz : Nat) (t0 : Option FileData),
        (process_image (.ok s) race sz ⟨none, t0⟩).result.success = true ∧
        (process_image (.ok s) race sz ⟨none, t0⟩).slot.temp = none ∧
        (process_image (.ok s) race sz ⟨none, t0⟩).slot.output.isSome = true) ∧
    (∀ (o t s : Nat) (race : Option Nat) (sz : Nat) (t0 : Option FileData),
        copy_shortcut_cond (some o) (some t) = false →
        ∃ out : StepOut,
          process_video (some o) (.ok s) race sz (some t) ⟨none, t0⟩ = .ok out ∧
          out.result.success = true ∧ out.slot.temp = none ∧
            out.slot.output.isSome = true) := by
  refine ⟨?_, ?_, ?_, ?_⟩
  · intro sz slot d t hd ht
    obtain ⟨o, tp⟩ := slot
    obtain rfl : o = some d := by simpa using hd
    obtain rfl : tp = some t := by simpa using ht
    rfl
  · intro sz slot t hd ht
    obtain ⟨o, tp⟩ := slot
    obtain rfl : o = none := by simpa using hd
    obtain rfl : tp = some t := by simpa using ht
    rfl
  · intro s race sz t0
    cases race <;> exact ⟨rfl, rfl, rfl⟩
  · intro o t s race sz t0 hc
    cases race with
    | none =>
        refine ⟨⟨⟨true, .converted, sz, s⟩, ⟨some (.full s), none⟩, true⟩, ?_, rfl, rfl, rfl⟩
        simp [process_video, format_size, bind, Except.bind, hc, applyRace, handle_result]
        rfl
    | some rs =>
        refine ⟨⟨⟨true, .existsSkip, sz, rs⟩, ⟨some (.full rs), none⟩, true⟩, ?_, rfl, rfl, rfl⟩
        simp [process_video, format_size, bind, Except.bind, hc, applyRace, handle_result,
          FileData.statSize]
        rfl

/-- C4 (witness): the re-check at concrete inputs — an output that
appeared concurrently is kept and the temp discarded; a still-absent
output receives the moved temp file. -/
theorem C4_witness :
    handle_result 100 ⟨some (.full 55), some (.full 60)⟩
      = some (⟨true, .existsSkip, 100, 55⟩, ⟨some (.full 55), none⟩) ∧
    handle_result 100 ⟨none, some (.full 60)⟩
      = some (⟨true, .converted, 100, 60⟩, ⟨some (.full 60), none⟩) :=
  ⟨C4_race_recheck.1 100 ⟨some (.full 55), some (.full 60)⟩ (.full 55) (.full 60) rfl rfl,
   C4_race_recheck.2.1 100 ⟨none, some (.full 60)⟩ (.full 60) rfl rfl⟩

/-- C9: because the driver walks the tree once for counting and again for
dispatch, both walks appending to the same skip record, the final record
counts every distinct skipped path exactly twice (whenever the run
proceeds past the zero-files early return). -/
theorem C9_skip_double_count :
    ∀ (fmts dpats fpats : List String) (children : EntryList)
      (procFile : FsPath → TaskResult),
      (collect_list fmts dpats fpats [] children).files ≠ [] →
      (∀ x, List.count x (mediaProcess true fmts dpats fpats children procFile).skipped_dirs
          = 2 * List.count x (collect_list fmts dpats fpats [] children).sdirs) ∧
      (∀ x, List.count x (mediaProcess true fmts dpats fpats children procFile).skipped_files
          = 2 * List.count x (collect_list fmts dpats fpats [] children).sfiles) := by
  intro fmts dpats fpats children procFile h
  have hperm := walk2_perm fmts dpats fpats [] children
  have hlen : ¬(collect_list fmts dpats fpats [] children).files.length = 0 := by
    simpa [List.length_eq_zero] using h
  constructor <;> intro x <;>
    · simp [mediaProcess, hlen, List.count_append, Nat.two_mul]
      first
      | exact hperm.1.countP_eq _
      | exact hperm.2.countP_eq _

/-- C9 (witness): a tree with one skipped directory and one skipped file
reports each of them twice. -/
theorem C9_witness :
    List.count [".git"]
        (mediaProcess true image_supported_formats skip_dir_patterns skip_file_patterns
          (elist [Entry.file "b.jpg", Entry.file ".hidden.jpg",
            Entry.dir ".git" (elist [Entry.file "c.jpg"])])
          fun _ => ⟨true, .converted, 0, 0⟩).skipped_dirs = 2 := by
  have h := (C9_skip_double_count image_supported_formats skip_dir_patterns
    skip_file_patterns
    (elist [Entry.file "b.jpg", Entry.file ".hidden.jpg",
      Entry.dir ".git" (elist [Entry.file "c.jpg"])])
    (fun _ => ⟨true, .converted, 0, 0⟩) (by decide)).1 [".git"]
  exact h.trans (by decide)

/-- C10: the driver always constructs the global tracker with the
whole-tree file count as denominator; no run ever selects the
per-directory variant; and `img2webp.main` passes only input_dir, quality
and workers to the converter, so the parsed `--local-progress` flag has no
effect on the construction. -/
theorem C10_global_tracker_always :
    (∀ (fmts dpats fpats : List String) (children : EntryList)
        (procFile : FsPath → TaskResult),
        (collect_list fmts dpats fpats [] children).files ≠ [] →
        (mediaProcess true fmts dpats fpats children procFile).tracker
          = some (.globalTracker (collect_list fmts dpats fpats [] children).files.length)) ∧
    (∀ (depsOk : Bool) (fmts dpats fpats : List String) (children : EntryList)
        (procFile : FsPath → TaskResult),
        (mediaProcess depsOk fmts dpats fpats children procFile).tracker
          ≠ some .perDirectory) ∧
    (∀ (a : Img2webpArgs) (b : Bool),
        mkWebpConverter { a with local_progress := b } = mkWebpConverter a) := by
  refine ⟨?_, ?_, fun a b => rfl⟩
  · intro fmts dpats fpats children procFile h
    simp [mediaProcess, List.length_eq_zero, h]
  · intro depsOk fmts dpats fpats children procFile
    simp only [mediaProcess]
    split
    · split <;> simp
    · simp

/-- C10 (witness): on a one-file tree the selected tracker is the global
one with total 1. -/
theorem C10_witness :
    (mediaProcess true image_supported_formats skip_dir_patterns skip_file_patterns
        (elist [Entry.file "a.jpg"]) fun _ => ⟨true, .converted, 0, 0⟩).tracker
      = some (.globalTracker 1) := by
  have h := C10_global_tracker_always.1 image_supported_formats skip_dir_patterns
    skip_file_patterns (elist [Entry.file "a.jpg"])
    (fun _ => ⟨true, .converted, 0, 0⟩) (by decide)
  exact h.trans (by decide)

end MediaPipeline
